import Mathlib

/-!
Shallow embedding of the observable-agent-starter repository.

Strings are modelled as Lean `String` / `List Char`; Python floats are
modelled as exact rationals `ℚ`; CPython string operations (`strip`,
`lower`, `in`, `startswith`, `split`, `splitlines`, `replace`) are
re-implemented over `List Char` in their ASCII fragment, which covers all
string constants appearing in the repository.
-/

/-- ASCII fragment of Python's `str.strip()` whitespace set. -/
def isPySpace (c : Char) : Bool :=
  c == ' ' || c == '\t' || c == '\n' || c == '\r' || Char.ofNat 11 == c || Char.ofNat 12 == c

/-- Python `s.strip()`: drop leading and trailing whitespace. -/
def pyStrip (s : List Char) : List Char :=
  ((s.dropWhile isPySpace).reverse.dropWhile isPySpace).reverse

/-- Python `s.lower()` (ASCII fragment). -/
def pyLower (s : List Char) : List Char := s.map Char.toLower

/-- Embeds `str.lower` lifted to `String`. -/
def strLower (s : String) : String := String.mk (pyLower s.toList)

/-- Embeds `str.strip` lifted to `String`. -/
def strStrip (s : String) : String := String.mk (pyStrip s.toList)

/-- Python `s.startswith(p)`: `begWith p s` is true when `p` begins `s`. -/
def begWith : List Char → List Char → Bool
  | [], _ => true
  | _ :: _, [] => false
  | p :: ps, c :: cs => p == c && begWith ps cs

/-- Python substring containment `w in s`. -/
def hasSub (w : List Char) : List Char → Bool
  | [] => w.isEmpty
  | c :: cs => begWith w (c :: cs) || hasSub w cs

/-- Embeds `w in t` for `String`s (the haystack comes first). -/
def strContainsWord (t w : String) : Bool := hasSub w.toList t.toList

/-! ### `agents/triage/policy.py` (identical module under the starter package) -/

def billingWords : List String := ["invoice", "charge", "refund", "billing"]

def techWords : List String := ["error", "bug", "doesn\x27t work", "crash", "api"]

def salesWords : List String := ["pricing", "quote", "demo", "trial"]

/-- Embeds `neutral_policy` from `agents/triage/policy.py`. -/
def neutral_policy (text : String) : String :=
  let t := strLower text
  if billingWords.any (fun w => strContainsWord t w) then "billing"
  else if techWords.any (fun w => strContainsWord t w) then "tech"
  else if salesWords.any (fun w => strContainsWord t w) then "sales"
  else "tech"

/-- C4: `neutral_policy` returns "billing" if the lower-cased text contains one
of the billing keywords, otherwise "tech" on a tech keyword, otherwise "sales"
on a sales keyword, otherwise "tech", with the checks in exactly that order. -/
theorem neutral_policy_keyword_order (text : String) :
    neutral_policy text =
      (if ∃ w ∈ billingWords, strContainsWord (strLower text) w = true then "billing"
       else if ∃ w ∈ techWords, strContainsWord (strLower text) w = true then "tech"
       else if ∃ w ∈ salesWords, strContainsWord (strLower text) w = true then "sales"
       else "tech") := by
  simp only [neutral_policy, List.any_eq_true]

/-! ### `agents/triage/agent.py` and
`src/observable_agent_starter/agents/routing/agent.py`

`forward` is modelled as a pure function of the configured-LM state and the
LM's prediction.  `lm = none` models `dspy.settings` holding no LM;
`lm = some pred` models a configured LM whose `ChainOfThought` call produced
`pred`.  `getattr(pred, "rationale", "") or getattr(pred, "explanation", "")`
evaluates to the `rationale` string itself in both of its cases (the
signatures define no `explanation` output field, so that getattr yields `""`),
so the prediction is modelled by its `route` and `rationale` strings.
Langfuse logging (`log_langfuse_generation`) swallows every exception and
returns `None`; it does not affect the returned dictionary and is omitted. -/

/-- Modelled from the spec: the routing package's own
`observable_agent_starter/agents/routing/policy.py` (imported by
`StarterAgent` as `from .policy import neutral_policy`) is absent from the
source tree — only its importers are.  The spec describes a single "fallback
policy", "a keyword-substring heuristic used when no model is configured or
the model's output fails guardrails" amounting to "a handful of
keyword-substring checks", so it is modelled as the same keyword function as
the triage module that is in the tree. -/
def routing_neutral_policy (text : String) : String := neutral_policy text

structure RoutePred where
  route : String
  rationale : String

/-- The dictionary `{"route": ..., "explanation": ...}` both agents return. -/
structure RouteResult where
  route : String
  explanation : String
deriving DecidableEq

/-- Embeds `ALLOWED_ROUTES` from both agent modules. -/
def ALLOWED_ROUTES : List String := ["billing", "tech", "sales"]

/-- Embeds `TriageAgent.forward` from `agents/triage/agent.py`. -/
def TriageAgent_forward (lm : Option RoutePred) (ticket : String) : RouteResult :=
  match lm with
  | none =>
      { route := neutral_policy ticket
        explanation := "Policy fallback used because no LM is configured." }
  | some pred =>
      let raw_route := strLower (strStrip pred.route)
      if ALLOWED_ROUTES.contains raw_route then
        { route := raw_route, explanation := pred.rationale }
      else
        { route := neutral_policy ticket
          explanation := "Policy fallback applied because LM returned an unsupported route." }

/-- Embeds `StarterAgent.forward` from
`src/observable_agent_starter/agents/routing/agent.py` (same logic over the
`request` input). -/
def StarterAgent_forward (lm : Option RoutePred) (request : String) : RouteResult :=
  match lm with
  | none =>
      { route := routing_neutral_policy request
        explanation := "Policy fallback used because no LM is configured." }
  | some pred =>
      let raw_route := strLower (strStrip pred.route)
      if ALLOWED_ROUTES.contains raw_route then
        { route := raw_route, explanation := pred.rationale }
      else
        { route := routing_neutral_policy request
          explanation := "Policy fallback applied because LM returned an unsupported route." }

/-- C3: in both `TriageAgent.forward` and `StarterAgent.forward`, the keyword
fallback is applied exactly when no LM is configured or the stripped,
lower-cased model route is outside {billing, tech, sales}; in both fallback
cases the returned `route` is `neutral_policy` of the input text, and
otherwise the returned `route` is the stripped lower-cased model route. -/
theorem forward_fallback_exactly (p : RoutePred) (t : String) :
    (TriageAgent_forward none t).route = neutral_policy t ∧
    (TriageAgent_forward (some p) t).route =
      (if strLower (strStrip p.route) ∈ ALLOWED_ROUTES
       then strLower (strStrip p.route) else neutral_policy t) ∧
    (StarterAgent_forward none t).route = routing_neutral_policy t ∧
    (StarterAgent_forward (some p) t).route =
      (if strLower (strStrip p.route) ∈ ALLOWED_ROUTES
       then strLower (strStrip p.route) else routing_neutral_policy t) := by
  refine ⟨rfl, ?_, rfl, ?_⟩ <;>
  · simp only [TriageAgent_forward, StarterAgent_forward]
    by_cases h : strLower (strStrip p.route) ∈ ALLOWED_ROUTES <;> simp [h]

/-- Helper for C8: the policy only ever returns one of the three routes. -/
theorem neutral_policy_mem (t : String) : neutral_policy t ∈ ALLOWED_ROUTES := by
  simp only [neutral_policy, ALLOWED_ROUTES]
  split <;> [skip; split] <;> [simp; simp; split <;> simp]

/-- C8: every dictionary either agent returns has a `route` in
{billing, tech, sales}; `neutral_policy` only returns these three strings and
an out-of-set LM route is replaced by the policy result. -/
theorem forward_route_always_allowed (lm : Option RoutePred) (t : String) :
    neutral_policy t ∈ ALLOWED_ROUTES ∧
    routing_neutral_policy t ∈ ALLOWED_ROUTES ∧
    (TriageAgent_forward lm t).route ∈ ALLOWED_ROUTES ∧
    (StarterAgent_forward lm t).route ∈ ALLOWED_ROUTES := by
  refine ⟨neutral_policy_mem t, neutral_policy_mem t, ?_, ?_⟩ <;>
  cases lm with
  | none => exact neutral_policy_mem t
  | some p =>
      simp only [TriageAgent_forward, StarterAgent_forward]
      split
      case isTrue h => simpa using h
      case isFalse h => exact neutral_policy_mem t

/-! ### `examples/coding_agent/src/adl_agent/agent.py`

`fnmatch.fnmatch` and `pathlib.Path.match` are Python-standard-library glob
matchers external to this repository; they are abstracted as opaque boolean
parameters `fnmatchB` / `pathMatchB`.  `CodeAgent.forward` is modelled as its
post-LM guardrail stage: a pure function of the allowed patterns and the LM
prediction, returning `Except.error` for `raise ValueError` (messages
abbreviated) and `Except.ok` for the normal return.  `self.log_generation`
forwards to `log_langfuse_generation`, which catches every exception, so it
cannot change the outcome and is omitted. -/

/-- Python `s.split("\n")` over `List Char`; always returns ≥ 1 chunk. -/
def splitOnNl : List Char → List (List Char)
  | [] => [[]]
  | c :: cs =>
      if c == '\n' then [] :: splitOnNl cs
      else
        match splitOnNl cs with
        | [] => [[c]]
        | l :: ls => (c :: l) :: ls

/-- Embeds `extract_files_from_patch`: paths from `--- a/` and `+++ b/` diff headers.
Python returns `list(set(files))`, whose order is unspecified; `eraseDups`
fixes one order and preserves exactly the set of members, which is all the
downstream validation depends on. -/
def extract_files_from_patch (patch : String) : List String :=
  ((splitOnNl patch.toList).filterMap (fun line =>
    if begWith "--- a/".toList line || begWith "+++ b/".toList line then
      let fp := if line.contains '/' then (line.dropWhile (fun c => c != '/')).drop 1 else []
      if fp != ([] : List Char) && fp != "/dev/null".toList then some (String.mk fp) else none
    else none)).eraseDups

/-- Embeds `validate_patch_files`: every patch file must match some allowed pattern
under `fnmatch` or `Path.match` (the source's early-return loop is the
short-circuiting `all`/`any`). -/
def validate_patch_files (fnmatchB pathMatchB : String → String → Bool)
    (allowed_patterns : List String) (patch_files : List String) : Bool :=
  patch_files.all (fun file_path =>
    allowed_patterns.any (fun pattern =>
      fnmatchB file_path pattern || pathMatchB file_path pattern))

/-- The LM prediction for the `CodePatch` signature. -/
structure CodePatchPred where
  patch : String
  explanation : String
  risk_level : String
  files_modified : String

/-- The allowed risk levels `["low", "medium", "high"]`. -/
def riskLevels : List String := ["low", "medium", "high"]

/-- Guardrail stage of `CodeAgent.forward` (everything after the LM call). -/
def CodeAgent_forward (fnmatchB pathMatchB : String → String → Bool)
    (allowed_patterns : List String) (result : CodePatchPred) :
    Except String CodePatchPred :=
  let patch_files := extract_files_from_patch result.patch
  let files_valid := validate_patch_files fnmatchB pathMatchB allowed_patterns patch_files
  let risk_valid := riskLevels.contains (strLower result.risk_level)
  let patch_valid := decide (0 < (pyStrip result.patch.toList).length)
  if !files_valid then Except.error "Patch modifies disallowed files"
  else if !risk_valid then Except.error "Risk level must be low/medium/high"
  else if !patch_valid then Except.error "Patch cannot be empty"
  else Except.ok result

/-- C2: `validate_patch_files` is true iff every file matches at least one
allowed pattern under `fnmatch` or `Path.match`, and is true on an empty file
list regardless of the patterns. -/
theorem validate_patch_files_iff (fnmatchB pathMatchB : String → String → Bool)
    (pats files : List String) :
    (validate_patch_files fnmatchB pathMatchB pats files = true ↔
      ∀ f ∈ files, ∃ p ∈ pats, (fnmatchB f p || pathMatchB f p) = true) ∧
    validate_patch_files fnmatchB pathMatchB pats [] = true := by
  refine ⟨?_, rfl⟩
  simp [validate_patch_files, List.all_eq_true, List.any_eq_true]

/-- C1: the guardrail stage of `CodeAgent.forward` raises `ValueError`
exactly when an extracted patch file matches no allowed pattern, or the
lower-cased risk level is outside {low, medium, high}, or the patch strips to
the empty string; when all three checks pass it returns the LM result. -/
theorem codeAgent_forward_guardrails (fnmatchB pathMatchB : String → String → Bool)
    (pats : List String) (result : CodePatchPred) :
    ((∃ e, CodeAgent_forward fnmatchB pathMatchB pats result = Except.error e) ↔
      ((∃ f ∈ extract_files_from_patch result.patch,
          ∀ p ∈ pats, fnmatchB f p = false ∧ pathMatchB f p = false) ∨
        strLower result.risk_level ∉ riskLevels ∨
        pyStrip result.patch.toList = [])) ∧
    (CodeAgent_forward fnmatchB pathMatchB pats result = Except.ok result ↔
      ¬((∃ f ∈ extract_files_from_patch result.patch,
          ∀ p ∈ pats, fnmatchB f p = false ∧ pathMatchB f p = false) ∨
        strLower result.risk_level ∉ riskLevels ∨
        pyStrip result.patch.toList = [])) := by
  have hfiles : (∃ f ∈ extract_files_from_patch result.patch,
      ∀ p ∈ pats, fnmatchB f p = false ∧ pathMatchB f p = false) ↔
      validate_patch_files fnmatchB pathMatchB pats (extract_files_from_patch result.patch)
        = false := by
    rw [← Bool.not_eq_true]
    simp [validate_patch_files, List.all_eq_true, List.any_eq_true]
  have hrisk : strLower result.risk_level ∉ riskLevels ↔
      riskLevels.contains (strLower result.risk_level) = false := by
    rw [← Bool.not_eq_true]
    simp
  have hpatch : pyStrip result.patch.toList = ([] : List Char) ↔
      decide (0 < (pyStrip result.patch.toList).length) = false := by
    simp [List.length_eq_zero]
  rw [hfiles, hrisk, hpatch]
  unfold CodeAgent_forward
  cases hf : validate_patch_files fnmatchB pathMatchB pats
      (extract_files_from_patch result.patch) <;>
  cases hr : riskLevels.contains (strLower result.risk_level) <;>
  cases hp : decide (0 < (pyStrip result.patch.toList).length) <;>
    simp [hf, hr, hp]

/-! ### `examples/coding_agent/src/adl_agent/harness.py`

`strip_markdown_fences` is pure string code and is embedded directly.
`write_new_file` and `make_patch_and_test` touch the file system and run
subprocesses; the file system is modelled as an association list from paths
to contents, OS failures of `mkdir`/`write_text` as a boolean oracle
`writeOk`, subprocess exit codes as integer oracles, and the agent call as an
`Except` oracle (`Except.error` models a raised exception).  The model
additionally returns the list of lint/test commands invoked, so that
"invoked exactly once, no retry" is statable. -/

/-- The backtick character (U+0060). -/
def backquote : Char := Char.ofNat 96

/-- The three-character fence marker. -/
def fenceMark : List Char := [backquote, backquote, backquote]

/-- Embeds `"\n".join(lines)` over `List Char`. -/
def joinNl : List (List Char) → List Char
  | [] => []
  | [l] => l
  | l :: ls => l ++ '\n' :: joinNl ls

/-- Embeds `strip_markdown_fences` from `harness.py`. -/
def strip_markdown_fences (content : List Char) : List Char :=
  match splitOnNl content with
  | [] => joinNl []
  | l0 :: rest =>
      if begWith fenceMark (pyStrip l0) then
        match rest.getLast? with
        | some lastLine =>
            if pyStrip lastLine = fenceMark then joinNl rest.dropLast else joinNl rest
        | none => joinNl rest
      else joinNl (l0 :: rest)

/-- Splitting on newlines never yields the empty list of chunks. -/
theorem splitOnNl_ne_nil (s : List Char) : splitOnNl s ≠ [] := by
  cases s with
  | nil => simp [splitOnNl]
  | cons c cs =>
      simp only [splitOnNl]
      split
      · simp
      · split <;> simp

/-- Rejoining the chunks of `split("\n")` with newlines restores the string. -/
theorem joinNl_splitOnNl (s : List Char) : joinNl (splitOnNl s) = s := by
  induction s with
  | nil => rfl
  | cons c cs ih =>
      have hjoin_cons : ∀ (l : List Char) (ls : List (List Char)),
          joinNl ((c :: l) :: ls) = c :: joinNl (l :: ls) := by
        intro l ls; cases ls <;> rfl
      simp only [splitOnNl]
      split
      case isTrue h =>
        obtain ⟨l, ls, hls⟩ := List.exists_cons_of_ne_nil (splitOnNl_ne_nil cs)
        rw [hls]
        have hstep : joinNl ([] :: l :: ls) = '\n' :: joinNl (l :: ls) := rfl
        rw [hstep, ← hls, ih]
        have hc : c = '\n' := by simpa using h
        rw [hc]
      case isFalse h =>
        cases hls : splitOnNl cs with
        | nil => exact absurd hls (splitOnNl_ne_nil cs)
        | cons l ls =>
            rw [hls] at ih
            rw [hjoin_cons, ih]

/-- C10 counterexample: on the content `" \x60\x60\x60\nx"` the first line
does not start with three backticks (it starts with a space), yet
`strip_markdown_fences` does not return the content unchanged, because the
source strips the first line before testing `startswith`. -/
theorem strip_markdown_fences_not_id_on_unfenced_first_line :
    begWith fenceMark ((splitOnNl ((' ' :: fenceMark) ++ '\n' :: ['x'])).headD []) = false ∧
    strip_markdown_fences ((' ' :: fenceMark) ++ '\n' :: ['x']) ≠
      (' ' :: fenceMark) ++ '\n' :: ['x'] := by
  decide

/-- C10 (amended): `strip_markdown_fences` is the identity whenever the first
line, stripped of whitespace, does not start with three backticks; otherwise
it drops the first line and also drops the last remaining line exactly when
that line, stripped of whitespace, equals the three-backtick fence. -/
theorem strip_markdown_fences_amended (content : List Char) :
    strip_markdown_fences content =
      (if begWith fenceMark (pyStrip ((splitOnNl content).headD [])) then
        (match ((splitOnNl content).tail).getLast? with
         | some lastLine =>
             if pyStrip lastLine = fenceMark then joinNl ((splitOnNl content).tail).dropLast
             else joinNl (splitOnNl content).tail
         | none => joinNl (splitOnNl content).tail)
       else content) := by
  conv_lhs => rw [strip_markdown_fences]
  cases hs : splitOnNl content with
  | nil => exact absurd hs (splitOnNl_ne_nil content)
  | cons l0 rest =>
      simp only [hs, List.headD_cons, List.tail_cons]
      split
      · rfl
      · have := joinNl_splitOnNl content
        rw [hs] at this
        exact this

/-- The file system: an association list from absolute paths to contents. -/
abbrev FS := List (String × String)

/-- Look up a path; `isSome` models `Path.exists()`. -/
def fsGet (fs : FS) (p : String) : Option String :=
  (fs.find? (fun kv => kv.1 == p)).map Prod.snd

/-- Embeds `write_new_file` from `harness.py`.  `writeOk` is the OS oracle for the
`mkdir`/`write_text` calls; when it is false the `except Exception` branch
returns `(False, msg)`.  `Path(repo_path) / filename` is modelled as
`repo_path ++ "/" ++ filename`. -/
def write_new_file (fs : FS) (writeOk : Bool) (repo_path filename content : String) :
    (Bool × String) × FS :=
  let path := repo_path ++ "/" ++ filename
  if (fsGet fs path).isSome then
    ((false, "File " ++ filename ++ " already exists"), fs)
  else if writeOk then
    let cleaned := String.mk (strip_markdown_fences content.toList)
    ((true, "Created " ++ filename), (path, cleaned) :: fs)
  else
    ((false, "Failed to write file"), fs)

/-- C9: `write_new_file` never overwrites.  The success flag is true exactly
when the path did not exist and the OS write succeeded; the file system is
extended with the fence-stripped content in that case and is unchanged in
every other case (in particular, when the path exists the old contents
survive untouched). -/
theorem write_new_file_never_overwrites (fs : FS) (writeOk : Bool)
    (repo_path filename content : String) :
    (write_new_file fs writeOk repo_path filename content).1.1 =
      ((fsGet fs (repo_path ++ "/" ++ filename)).isNone && writeOk) ∧
    (write_new_file fs writeOk repo_path filename content).2 =
      (if ((fsGet fs (repo_path ++ "/" ++ filename)).isNone && writeOk) = true
       then (repo_path ++ "/" ++ filename,
             String.mk (strip_markdown_fences content.toList)) :: fs
       else fs) := by
  cases ho : fsGet fs (repo_path ++ "/" ++ filename) <;> cases writeOk <;>
    simp [write_new_file, ho]

/-- The structured result the file-generating agent returns. -/
structure AgentFileResult where
  filename : String
  content : String
  explanation : String
  risk_level : String

/-- The two post-write checks the harness runs. -/
inductive CheckCmd
  | ruff
  | pytest
deriving DecidableEq

/-- Embeds `format_lint_and_test`: run `ruff check .` then `python -m pytest -q`,
once each; `all_passed` folds `and` over the per-check exit codes.  The model
also returns the commands invoked, in order.  Logging strings are omitted. -/
def format_lint_and_test (ruffExit pytestExit : Int) : Bool × List CheckCmd :=
  let results := [(CheckCmd.ruff, ruffExit), (CheckCmd.pytest, pytestExit)].map
    (fun r => (r.1, r.2 == 0))
  (results.foldl (fun acc r => acc && r.2) true, results.map Prod.fst)

/-- Oracles for one `make_patch_and_test` run: the repo snapshot string (its
producer `repo_snapshot` catches all exceptions and only feeds the agent
prompt), the agent-call outcome, the OS write oracle and the check exit
codes. -/
structure HarnessEnv where
  snapshot : String
  agent : Except String AgentFileResult
  writeOk : Bool
  ruffExit : Int
  pytestExit : Int

/-- Embeds `make_patch_and_test` from `harness.py`: returns the
`(content, passed, log)` triple together with the resulting file system and
the list of check commands that were run. -/
def make_patch_and_test (env : HarnessEnv) (fs : FS) (repo_path : String)
    (dry_run : Bool) : (String × Bool × String) × FS × List CheckCmd :=
  match env.agent with
  | Except.error e =>
      (("", false, "Agent failed to generate file: " ++ e), fs, [])
  | Except.ok r =>
      if dry_run then
        ((r.content, false, "DRY RUN - File generated but not written."), fs, [])
      else
        let w := write_new_file fs env.writeOk repo_path r.filename r.content
        if !w.1.1 then
          ((r.content, false, "Failed to write file:\n" ++ w.1.2), w.2, [])
        else
          let t := format_lint_and_test env.ruffExit env.pytestExit
          ((r.content, t.1, "=== FILE CREATED ==="), w.2, t.2)

/-- C7: `make_patch_and_test` always returns a triple (it is a total
function) and never raises on agent failure: an agent exception yields
`("", False, message)` with no file written and no check run; a failed write
(including an already-existing target) yields `(content, False, message)`
with no check run and the file system unchanged; otherwise `passed` is true
exactly when both the ruff check and the pytest run exit 0, and the two
checks are invoked exactly once each, in order, with no retry. -/
theorem make_patch_and_test_claims (snap e : String) (r : AgentFileResult)
    (fs : FS) (wOk : Bool) (re pe : Int) (repo_path : String) (dry_run : Bool) :
    (make_patch_and_test ⟨snap, Except.error e, wOk, re, pe⟩ fs repo_path dry_run =
      (("", false, "Agent failed to generate file: " ++ e), fs, [])) ∧
    ((make_patch_and_test ⟨snap, Except.ok r, wOk, re, pe⟩ fs repo_path false).1.1
        = r.content ∧
     (make_patch_and_test ⟨snap, Except.ok r, wOk, re, pe⟩ fs repo_path false).1.2.1
        = (((fsGet fs (repo_path ++ "/" ++ r.filename)).isNone && wOk)
            && (re == 0) && (pe == 0)) ∧
     (make_patch_and_test ⟨snap, Except.ok r, wOk, re, pe⟩ fs repo_path false).2.2
        = (if ((fsGet fs (repo_path ++ "/" ++ r.filename)).isNone && wOk) = true
           then [CheckCmd.ruff, CheckCmd.pytest] else []) ∧
     (if ((fsGet fs (repo_path ++ "/" ++ r.filename)).isNone && wOk) = true
      then True
      else (make_patch_and_test ⟨snap, Except.ok r, wOk, re, pe⟩ fs repo_path false).2.1
            = fs)) := by
  refine ⟨rfl, ?_, ?_, ?_, ?_⟩ <;>
    cases ho : fsGet fs (repo_path ++ "/" ++ r.filename) <;> cases wOk <;>
      simp [make_patch_and_test, write_new_file, format_lint_and_test, ho]

/-! ### `examples/influencer_assistant/training/tune_video_ideas.py` — `_cosine`

The values `_cosine` computes on are IEEE-754 binary64 floats, so each
arithmetic result is rounded.  Floats are modelled as the exact rationals
they denote, with rounding applied after every operation.  Full binary64
rounding is not needed here: the failing input below keeps every
intermediate value equal to zero or to a power of two, and on such values
rounding is exactly `flRound` — a power of two of exponent ≥ -1074 is
representable and kept, while any magnitude at or below 2^-1075 rounds to
+0.0 (round-to-nearest-even sends the midpoint 2^-1075, and everything
below it, to zero).  Mantissa rounding is therefore never exercised by the
theorem.  `math.sqrt` of a positive float is positive, and Python raises
`ZeroDivisionError` on float division by 0.0, so the unguarded final
statement `dot / math.sqrt(na * nb)` raises exactly when the float product
`na * nb` is 0.0; `none` models that raise. -/

/-- Binary64 rounding on the fragment the evaluation exercises (zero and
powers of two): magnitudes at or below 2^-1075 round to zero, anything the
theorem ever keeps is exactly representable. -/
def flRound (q : ℚ) : ℚ := if |q| ≤ ((2 : ℚ) ^ 1075)⁻¹ then 0 else q

/-- The `for x, y in zip(a, b)` loop of `_cosine`, accumulating
`(dot, na, nb)` with binary64 rounding after each multiplication and each
accumulating addition. -/
def cosineSumsFl (a b : List ℚ) : ℚ × ℚ × ℚ :=
  (a.zip b).foldl
    (fun acc xy =>
      (flRound (acc.1 + flRound (xy.1 * xy.2)),
       flRound (acc.2.1 + flRound (xy.1 * xy.1)),
       flRound (acc.2.2 + flRound (xy.2 * xy.2))))
    (0, 0, 0)

/-- Embeds `_cosine` from `tune_video_ideas.py` over binary64 values:
`some` is a normal return, `none` is the `ZeroDivisionError` raised by
`dot / math.sqrt(na * nb)` when the rounded product `na * nb` is 0.0
(`sqrt` stands for `math.sqrt` on the positive arguments of the normal
branch). -/
def cosineFl (sqrt : ℚ → ℚ) (a b : List ℚ) : Option ℚ :=
  if a = [] ∨ b = [] ∨ a.length ≠ b.length then some 0
  else
    let s := cosineSumsFl a b
    if s.2.1 = 0 ∨ s.2.2 = 0 then some 0
    else if flRound (s.2.1 * s.2.2) = 0 then none
    else some (s.1 / sqrt (flRound (s.2.1 * s.2.2)))

/-- The float 2^-282: exactly representable in binary64 (a decimal literal
such as `1e-85` denotes a float in the same regime). -/
def xUnder : ℚ := ((2 : ℚ) ^ 282)⁻¹

/-- C6: the code divides by zero where the claim says it never does.  At
`a = b = [2^-282]` every guard of `_cosine` passes — the lists are
non-empty and of equal length, and `na = nb = 2^-564`, a nonzero (normal)
binary64 value — yet `na * nb = 2^-1128` underflows to 0.0, so the final
statement divides by `math.sqrt(0.0) = 0.0` and raises
`ZeroDivisionError`.  The zero guards exist precisely to prevent this, so
the claim states the evident intent and the code slips on subnormal
inputs. -/
theorem cosineFl_zero_division_on_underflow (sqrt : ℚ → ℚ) :
    (cosineSumsFl [xUnder] [xUnder]).2.1 = ((2 : ℚ) ^ 564)⁻¹ ∧
    (cosineSumsFl [xUnder] [xUnder]).2.2 = ((2 : ℚ) ^ 564)⁻¹ ∧
    ((2 : ℚ) ^ 564)⁻¹ ≠ 0 ∧
    flRound (((2 : ℚ) ^ 564)⁻¹ * ((2 : ℚ) ^ 564)⁻¹) = 0 ∧
    cosineFl sqrt [xUnder] [xUnder] = none := by
  have hx : xUnder * xUnder = ((2 : ℚ) ^ 564)⁻¹ := by
    unfold xUnder
    rw [← mul_inv, ← pow_add]
  have hkeep : flRound (((2 : ℚ) ^ 564)⁻¹) = ((2 : ℚ) ^ 564)⁻¹ := by
    unfold flRound
    rw [if_neg]
    rw [abs_of_pos (by positivity), not_le]
    rw [inv_lt_inv₀ (by positivity) (by positivity)]
    exact pow_lt_pow_right₀ (by norm_num) (by norm_num)
  have hflush : flRound (((2 : ℚ) ^ 564)⁻¹ * ((2 : ℚ) ^ 564)⁻¹) = 0 := by
    rw [← mul_inv, ← pow_add]
    unfold flRound
    rw [if_pos]
    rw [abs_of_pos (by positivity)]
    rw [inv_le_inv₀ (by positivity) (by positivity)]
    exact pow_le_pow_right₀ (by norm_num) (by norm_num)
  have hsums : cosineSumsFl [xUnder] [xUnder]
      = (((2 : ℚ) ^ 564)⁻¹, ((2 : ℚ) ^ 564)⁻¹, ((2 : ℚ) ^ 564)⁻¹) := by
    simp only [cosineSumsFl, List.zip_cons_cons, List.zip_nil_right,
      List.foldl_cons, List.foldl_nil, hx, hkeep, zero_add]
  have hne : ((2 : ℚ) ^ 564)⁻¹ ≠ 0 := by positivity
  refine ⟨by rw [hsums], by rw [hsums], hne, hflush, ?_⟩
  simp only [cosineFl, hsums]
  rw [if_neg (by simp), if_neg (by simp [hne]), if_pos hflush]

/-! #### `similarity_metric` and its helpers

`normalize_line`, `token_set` and `_lines_from_obj` are embedded over
`List Char`; `difflib.SequenceMatcher(None, a, b).ratio()` is embedded as the
actual CPython algorithm (`b2j` with the autojunk heuristic, the
longest-match scan with its two equal-element extension passes — the junk
extension passes are no-ops because `isjunk` is `None` — and the recursive
matching-block decomposition, whose fuel `|a| + |b| + 1` exceeds the
recursion depth, which shrinks `(ahi - alo) + (bhi - blo)` at every level).
The float threshold `0.6` is the exact rational `3/5`. -/

/-- Embeds `re.split(r"[^a-z0-9]+", s)` keeps maximal runs of these characters. -/
def isTokChar (c : Char) : Bool :=
  ('a' ≤ c && c ≤ 'z') || ('0' ≤ c && c ≤ '9')

/-- Accumulate maximal `isTokChar` runs (the non-empty split pieces). -/
def tokenRunsAux (cur : List Char) : List Char → List (List Char)
  | [] => if cur.isEmpty then [] else [cur.reverse]
  | c :: cs =>
      if isTokChar c then tokenRunsAux (c :: cur) cs
      else if cur.isEmpty then tokenRunsAux [] cs
      else cur.reverse :: tokenRunsAux [] cs

/-- Embeds `token_set`: the set of alphanumeric tokens, as a duplicate-free list. -/
def tokSet (s : List Char) : List (List Char) := (tokenRunsAux [] s).dedup

/-- The em dash U+2014. -/
def emDash : Char := Char.ofNat 8212

/-- The en dash U+2013. -/
def enDash : Char := Char.ofNat 8211

/-- Embeds `re.sub(r"^\s*\d+[\.)\-\s]*", "", s)`: drop leading numbering when the
anchored pattern matches (optional whitespace, then at least one digit, then
any run of `.`/`)`/`-`/whitespace); otherwise return `s` unchanged. -/
def subLeadingNumbering (s : List Char) : List Char :=
  match s.dropWhile isPySpace with
  | [] => s
  | c :: cs =>
      if c.isDigit then
        ((c :: cs).dropWhile Char.isDigit).dropWhile
          (fun d => d == '.' || d == ')' || d == '-' || isPySpace d)
      else s

/-- Python `s.replace(" — ", " - ")`: leftmost, non-overlapping, the
replacement is not rescanned; on a failed match the scan advances one
character. -/
def replEmDash : List Char → List Char
  | ' ' :: d :: ' ' :: rest =>
      if d == emDash then ' ' :: '-' :: ' ' :: replEmDash rest
      else ' ' :: replEmDash (d :: ' ' :: rest)
  | c :: cs => c :: replEmDash cs
  | [] => []

/-- Python `s.replace("–", "-")`. -/
def replEnDash : List Char → List Char
  | [] => []
  | c :: cs => (if c == enDash then '-' else c) :: replEnDash cs

/-- Embeds `re.sub(r"\s+", " ", s)`: each maximal whitespace run becomes one space.
`prevSpace` records whether the previous character was part of a run whose
single replacement space was already emitted. -/
def collapseWsAux (prevSpace : Bool) : List Char → List Char
  | [] => []
  | c :: cs =>
      if isPySpace c then
        if prevSpace then collapseWsAux true cs
        else ' ' :: collapseWsAux true cs
      else c :: collapseWsAux false cs

/-- Embeds `re.sub(r"\s+", " ", s)`. -/
def collapseWs (s : List Char) : List Char := collapseWsAux false s

/-- Embeds `normalize_line` from `similarity_metric`: strip, lower, drop leading
numbering, unify dash separators, collapse whitespace. -/
def normalize_line (s : List Char) : List Char :=
  collapseWs (replEnDash (replEmDash (subLeadingNumbering (pyLower (pyStrip s)))))

/-- Ascending index positions of `x` in `b` (one `b2j` entry). -/
def positionsOf (x : Char) (b : List Char) : List Nat :=
  (List.range b.length).filter (fun j => b.get? j == some x)

/-- difflib `b2j` with `isjunk = None` and the autojunk heuristic: for
`len(b) >= 200`, an element occurring more than `len(b) // 100 + 1` times is
popular and is dropped from the index. -/
def b2j (b : List Char) (x : Char) : List Nat :=
  let idxs := positionsOf x b
  if b.length ≥ 200 ∧ idxs.length > b.length / 100 + 1 then [] else idxs

/-- One row of `find_longest_match`'s scan: fold the candidate `j` positions
of `a[i]`, building `newj2len` and updating the best block.  The best block
is `(besti, bestj, bestsize)`. -/
def flmRow (j2len : Nat → Nat) (i blo bhi : Nat) (js : List Nat)
    (best : Nat × Nat × Nat) : (Nat → Nat) × (Nat × Nat × Nat) :=
  js.foldl
    (fun acc j =>
      if blo ≤ j ∧ j < bhi then
        let k := (if j = 0 then 0 else j2len (j - 1)) + 1
        let nj := fun m => if m = j then k else acc.1 m
        if k > acc.2.2.2 then (nj, (i + 1 - k, j + 1 - k, k)) else (nj, acc.2)
      else acc)
    ((fun _ => 0), best)

/-- The outer `for i in range(alo, ahi)` scan of `find_longest_match`. -/
def flmScan (a b : List Char) (blo bhi : Nat) :
    List Nat → (Nat → Nat) → Nat × Nat × Nat → Nat × Nat × Nat
  | [], _, best => best
  | i :: is, j2len, best =>
      let js := match a.get? i with
        | some x => b2j b x
        | none => []
      let step := flmRow j2len i blo bhi js best
      flmScan a b blo bhi is step.1 step.2

/-- The left extension pass over equal elements (the junk passes are
no-ops since `isjunk` is `None`).  `fuel` bounds the steps; the initial `i`
always suffices since `i` decreases towards `alo`. -/
def extendLeft (a b : List Char) (alo blo : Nat) : Nat → Nat → Nat → Nat → Nat × Nat × Nat
  | 0, i, j, k => (i, j, k)
  | fuel + 1, i, j, k =>
      if alo < i ∧ blo < j then
        match a.get? (i - 1), b.get? (j - 1) with
        | some x, some y =>
            if x == y then extendLeft a b alo blo fuel (i - 1) (j - 1) (k + 1)
            else (i, j, k)
        | _, _ => (i, j, k)
      else (i, j, k)

/-- The right extension pass over equal elements; `fuel` bounds the number of
steps (`ahi` always suffices since `i + k` grows towards `ahi`). -/
def extendRight (a b : List Char) (ahi bhi i j : Nat) : Nat → Nat → Nat
  | 0, k => k
  | fuel + 1, k =>
      if i + k < ahi ∧ j + k < bhi then
        match a.get? (i + k), b.get? (j + k) with
        | some x, some y =>
            if x == y then extendRight a b ahi bhi i j fuel (k + 1) else k
        | _, _ => k
      else k

/-- Embeds `SequenceMatcher.find_longest_match` on the slices `a[alo:ahi]`,
`b[blo:bhi]`. -/
def find_longest_match (a b : List Char) (alo ahi blo bhi : Nat) : Nat × Nat × Nat :=
  let best := flmScan a b blo bhi (List.range' alo (ahi - alo)) (fun _ => 0) (alo, blo, 0)
  let bl := extendLeft a b alo blo best.1 best.1 best.2.1 best.2.2
  let k := extendRight a b ahi bhi bl.1 bl.2.1 ahi bl.2.2
  (bl.1, bl.2.1, k)

/-- Total size of the matching blocks of `get_matching_blocks`: recurse on
both sides of the longest match.  The fuel `|a| + |b| + 1` always suffices:
each level with a non-trivial match strictly shrinks
`(ahi - alo) + (bhi - blo)`. -/
def matchedTotal (a b : List Char) : Nat → Nat → Nat → Nat → Nat → Nat
  | 0, _, _, _, _ => 0
  | fuel + 1, alo, ahi, blo, bhi =>
      let m := find_longest_match a b alo ahi blo bhi
      if m.2.2 = 0 then 0
      else
        matchedTotal a b fuel alo m.1 blo m.2.1 + m.2.2 +
          matchedTotal a b fuel (m.1 + m.2.2) ahi (m.2.1 + m.2.2) bhi

/-- Embeds `difflib.SequenceMatcher(None, a, b).ratio()`:
`2 * matches / (len(a) + len(b))`, and 1.0 when both are empty. -/
def ratioScore (a b : List Char) : ℚ :=
  let numMatches := matchedTotal a b (a.length + b.length + 1) 0 a.length 0 b.length
  let total := a.length + b.length
  if total ≠ 0 then (2 * numMatches : ℚ) / total else 1

/-- The per-pair score in `similarity_metric`: token Jaccard (with the
`len(union) or 1` guard) when either token set is non-empty, else 0. -/
def jaccardScore (e p : List Char) : ℚ :=
  let et := tokSet e
  let pt := tokSet p
  if et ≠ [] ∨ pt ≠ [] then
    let inter := (et.filter (fun t => pt.contains t)).length
    let uni := et.length + (pt.filter (fun t => !et.contains t)).length
    (inter : ℚ) / (max uni 1)
  else 0

/-- Embeds `score = max(j, r)` for one expected/predicted line pair. -/
def lineScore (e p : List Char) : ℚ := max (jaccardScore e p) (ratioScore e p)

/-- The inner `for i, pred in enumerate(predicted_lines)` loop: the best
score over unused predicted lines and its index (`-1` when never updated). -/
def bestMatch (e : List Char) (predicted : List (List Char)) (used : List Int) :
    ℚ × Int :=
  (List.range predicted.length).foldl
    (fun acc (i : Nat) =>
      if used.contains (Int.ofNat i) then acc
      else
        match predicted.get? i with
        | none => acc
        | some p =>
            let score := lineScore e p
            if score > acc.1 then (score, Int.ofNat i) else acc)
    (0, -1)

/-- The outer greedy loop of `similarity_metric`: count expected lines whose
best score over unused predicted lines reaches the 0.6 threshold, marking the
matched index as used. -/
def greedyMatched : List (List Char) → List (List Char) → List Int → Nat → Nat
  | [], _, _, matched => matched
  | e :: es, predicted, used, matched =>
      let bm := bestMatch e predicted used
      if bm.1 ≥ 3 / 5 then greedyMatched es predicted (bm.2 :: used) (matched + 1)
      else greedyMatched es predicted used matched

/-- The objects `similarity_metric` scores: `getattr(obj, field, "")` for the
nine structured idea fields and the free-form `response`. -/
structure IdeaObj where
  idea1_title : String := ""
  idea1_summary : String := ""
  idea1_pillar : String := ""
  idea2_title : String := ""
  idea2_summary : String := ""
  idea2_pillar : String := ""
  idea3_title : String := ""
  idea3_summary : String := ""
  idea3_pillar : String := ""
  response : String := ""

/-- Embeds `get(name)` in `_lines_from_obj`: `str(getattr(obj, name, "") or "").strip()`. -/
def getF (s : String) : List Char := pyStrip s.toList

/-- Embeds `" - ".join(parts)`. -/
def joinDash : List (List Char) → List Char
  | [] => []
  | [x] => x
  | x :: xs => x ++ (' ' :: '-' :: ' ' :: joinDash xs)

/-- Build one structured idea line from (title, summary, pillar); `none`
models the `continue` on an all-empty triple. -/
def ideaLine (t s p : List Char) : Option (List Char) :=
  if t = [] ∧ s = [] ∧ p = [] then none
  else
    let core := joinDash ([t, s].filter (fun x => !x.isEmpty))
    some (if p ≠ [] then (if core ≠ [] then core ++ (' ' :: '|' :: ' ' :: p) else p)
          else core)

/-- Python `str.splitlines()` (ASCII fragment: `\n`, `\r`, `\r\n`). -/
def pySplitlines : List Char → List (List Char)
  | [] => []
  | '\n' :: cs => [] :: pySplitlines cs
  | '\r' :: '\n' :: cs => [] :: pySplitlines cs
  | '\r' :: cs => [] :: pySplitlines cs
  | c :: cs =>
      match pySplitlines cs with
      | [] => [[c]]
      | l :: ls => (c :: l) :: ls

/-- Embeds `_lines_from_obj`: up to three structured idea lines when any structured
field is set, else up to three non-empty stripped lines of `response`. -/
def linesFromObj (o : IdeaObj) : List (List Char) :=
  let t1 := getF o.idea1_title
  let t2 := getF o.idea2_title
  let t3 := getF o.idea3_title
  let s1 := getF o.idea1_summary
  let s2 := getF o.idea2_summary
  let s3 := getF o.idea3_summary
  let p1 := getF o.idea1_pillar
  let p2 := getF o.idea2_pillar
  let p3 := getF o.idea3_pillar
  let fallback :=
    ((((pySplitlines o.response.toList).map pyStrip).filter (fun l => !l.isEmpty)).take 3)
  if !t1.isEmpty || !t2.isEmpty || !t3.isEmpty ||
     !s1.isEmpty || !s2.isEmpty || !s3.isEmpty ||
     !p1.isEmpty || !p2.isEmpty || !p3.isEmpty then
    let out := [ideaLine t1 s1 p1, ideaLine t2 s2 p2, ideaLine t3 s3 p3].filterMap id
    if !out.isEmpty then out.take 3 else fallback
  else fallback

/-- Embeds `similarity_metric` from `tune_video_ideas.py` (the `trace` argument is
unused by the source and omitted). -/
def similarity_metric (exObj predObj : IdeaObj) : ℚ :=
  let expected_lines := (linesFromObj exObj).map normalize_line
  let predicted_lines := (linesFromObj predObj).map normalize_line
  if expected_lines = [] then 0
  else if predicted_lines = [] then 0
  else
    (greedyMatched expected_lines predicted_lines [] 0 : ℚ) /
      (max 1 expected_lines.length)

/-- The greedy loop counts at most one match per expected line. -/
theorem greedyMatched_le (es : List (List Char)) :
    ∀ (predicted : List (List Char)) (used : List Int) (m : Nat),
      greedyMatched es predicted used m ≤ m + es.length := by
  induction es with
  | nil => intro predicted used m; simp [greedyMatched]
  | cons e es ih =>
      intro predicted used m
      simp only [greedyMatched]
      split
      · have := ih predicted ((bestMatch e predicted used).2 :: used) (m + 1)
        simp only [List.length_cons]
        omega
      · have := ih predicted used m
        simp only [List.length_cons]
        omega

/-- C5 counterexample: with `example.response = "1."` and
`prediction.response = "2)"`, each side yields exactly one line and it
normalizes to the empty string — so neither side yields any non-empty
normalized line — yet `similarity_metric` returns 1, not 0: the source only
tests list emptiness, and difflib's ratio of two empty strings is 1.0, which
clears the 0.6 threshold. -/
theorem similarity_metric_one_on_all_empty_normalized_lines :
    ((linesFromObj { response := "1." }).map normalize_line).all
        (fun l => l.isEmpty) = true ∧
    ((linesFromObj { response := "2)" }).map normalize_line).all
        (fun l => l.isEmpty) = true ∧
    (linesFromObj { response := "1." }).length = 1 ∧
    (linesFromObj { response := "2)" }).length = 1 ∧
    similarity_metric { response := "1." } { response := "2)" } = 1 := by
  refine ⟨rfl, rfl, rfl, rfl, ?_⟩
  have hbm : bestMatch [] [[]] [] = (1, 0) := rfl
  have hg : greedyMatched [[]] [[]] [] 0 = 1 := by
    simp only [greedyMatched, hbm]
    norm_num
  have hrw : similarity_metric { response := "1." } { response := "2)" }
      = (greedyMatched [[]] [[]] [] 0 : ℚ) / ((max 1 (1 : Nat) : Nat) : ℚ) := rfl
  rw [hrw, hg]
  norm_num

/-- C5 (amended): `similarity_metric` returns 0 when either side yields no
lines at all (a line that normalizes to the empty string still counts as a
line); otherwise it returns the greedily matched count — each expected line
matched to a distinct predicted line when the best of token-set Jaccard and
difflib ratio reaches 0.6 — divided by the number of expected lines; and the
result always lies in [0, 1]. -/
theorem similarity_metric_amended (exObj predObj : IdeaObj) :
    (similarity_metric exObj predObj =
      (if linesFromObj exObj = [] ∨ linesFromObj predObj = [] then 0
       else
         (greedyMatched ((linesFromObj exObj).map normalize_line)
             ((linesFromObj predObj).map normalize_line) [] 0 : ℚ) /
           (max 1 (linesFromObj exObj).length))) ∧
    0 ≤ similarity_metric exObj predObj ∧
    similarity_metric exObj predObj ≤ 1 := by
  constructor
  · rcases eq_or_ne (linesFromObj exObj) [] with h1 | h1 <;>
    rcases eq_or_ne (linesFromObj predObj) [] with h2 | h2 <;>
      simp [similarity_metric, h1, h2]
  · have hle : greedyMatched ((linesFromObj exObj).map normalize_line)
        ((linesFromObj predObj).map normalize_line) [] 0
        ≤ ((linesFromObj exObj).map normalize_line).length := by
      simpa using greedyMatched_le ((linesFromObj exObj).map normalize_line)
        ((linesFromObj predObj).map normalize_line) [] 0
    have hsm : similarity_metric exObj predObj =
        (if (linesFromObj exObj).map normalize_line = [] then 0
         else if (linesFromObj predObj).map normalize_line = [] then 0
         else
           (greedyMatched ((linesFromObj exObj).map normalize_line)
               ((linesFromObj predObj).map normalize_line) [] 0 : ℚ) /
             (max 1 ((linesFromObj exObj).map normalize_line).length)) := rfl
    rw [hsm]
    split
    · norm_num
    · split
      · norm_num
      · have hposn : 0 < max 1 ((linesFromObj exObj).map normalize_line).length :=
          lt_of_lt_of_le Nat.zero_lt_one (le_max_left 1 _)
        have hpos : (0 : ℚ) <
            ((max 1 ((linesFromObj exObj).map normalize_line).length : Nat) : ℚ) := by
          exact_mod_cast hposn
        constructor
        · exact div_nonneg (by positivity) (le_of_lt hpos)
        · rw [div_le_one hpos]
          exact_mod_cast le_trans hle (le_max_right 1 _)
